import Mathlib

/-!
# Azure management SDK test harness: `testutils` and the `vmutils` integration helpers

A shallow embedding of `management/testutils/managementclient.go` and of the helper
functions of `management/vmutils/integration_test.go`, followed by the properties
proved about them.

Conventions of the embedding

* A Go `string` is its sequence of bytes (`GoString`); `len` is `List.length`,
  `s[:n]` is `List.take n`, `s[n:]` is `List.drop n`, `+` is `++`, and the
  comparison operators are the lexicographic order on bytes.
* A Go `[]byte` is `GoBytes`; `none` is the nil slice.
* A Go `error` is `Option ε` for an arbitrary type `ε` of error values; `none` is `nil`.
* Code that talks to the outside world is a state transformer `σ → result × σ`,
  where `σ` is the state of everything the call can touch.
* `*testing.T` is the value `T ε`: the lines logged so far and the failed flag.
  `Skip` and `Fatal` also end the calling function, which is the `Outcome` it returns.
-/

namespace Azure

/-! ## Go values -/

/-- A byte. -/
abbrev Byte := Fin 256

/-- A Go string: a sequence of bytes. -/
abbrev GoString := List Byte

/-- A Go byte slice; `none` is the nil slice. -/
abbrev GoBytes := Option (List Byte)

/-- The conversion `string(d)` of a byte slice: the same bytes (no bytes for nil). -/
def GoBytes.string (d : GoBytes) : GoString := d.getD []

/-- A string literal of the source, all of which are ASCII, as a Go string. -/
def lit (s : String) : GoString := s.toList.map (fun c => Fin.ofNat c.toNat)

/-- The conversion `string(b)` of a single byte `b`: Go converts an integer to the
UTF-8 encoding of the code point with that number, so a byte below 0x80 gives
itself and a byte from 0x80 up gives two bytes. -/
def byteToString (b : Byte) : GoString :=
  if b.val < 128 then [b] else [Fin.ofNat (192 + b.val / 64), Fin.ofNat (128 + b.val % 64)]

/-- The type `management.OperationID`, a string type. -/
abbrev OperationID := GoString

/-! ## `testing.T` -/

/-- An argument handed to one of the logging methods of `testing.T`. -/
inductive LogArg (ε : Type) where
  | str (s : GoString)
  | err (e : ε)
  deriving DecidableEq, Repr

/-- One call of a logging method: the format string (`none` for the methods
without one, such as `Log`) and the arguments. -/
structure LogEntry (ε : Type) where
  format : Option String
  args : List (LogArg ε)
  deriving DecidableEq, Repr

/-- The observable state of a `*testing.T`. -/
structure T (ε : Type) where
  output : List (LogEntry ε)
  failed : Bool
  deriving DecidableEq, Repr

/-- How a function that was handed a `*testing.T` ends: it returns, or it ends the
test through `Fatal` (`FailNow`) or `Skip` (`SkipNow`), or it panics. -/
inductive Outcome (α : Type) where
  | returned (a : α)
  | fatal
  | skipped
  | panicked

/-- The method `t.Log(args...)`. -/
def T.Log {ε : Type} (t : T ε) (args : List (LogArg ε)) : T ε :=
  { t with output := t.output ++ [⟨none, args⟩] }

/-- The method `t.Logf(format, args...)`. -/
def T.Logf {ε : Type} (t : T ε) (format : String) (args : List (LogArg ε)) : T ε :=
  { t with output := t.output ++ [⟨some format, args⟩] }

/-- The state change of `t.Error(args...)`: `Log` followed by `Fail`. -/
def T.Error {ε : Type} (t : T ε) (args : List (LogArg ε)) : T ε :=
  { t.Log args with failed := true }

/-- The state change of `t.Fatal(args...)`: `Log` followed by `FailNow`; the caller
ends with `Outcome.fatal`. -/
def T.Fatal {ε : Type} (t : T ε) (args : List (LogArg ε)) : T ε :=
  { t.Log args with failed := true }

/-- The state change of `t.Skip(args...)`: `Log` followed by `SkipNow`; the caller
ends with `Outcome.skipped`. -/
def T.Skip {ε : Type} (t : T ε) (args : List (LogArg ε)) : T ε :=
  t.Log args

/-! ## `management.Client` -/

/-- The methods of the interface `management.Client` that the sources use. `χ` is
the type of the second argument of `WaitForOperation`, for which `none` is `nil`. -/
structure Client (σ ε χ : Type) where
  SendAzureGetRequest : GoString → σ → (GoBytes × Option ε) × σ
  SendAzurePostRequest : GoString → GoBytes → σ → (OperationID × Option ε) × σ
  SendAzurePutRequest : GoString → GoString → GoBytes → σ → (OperationID × Option ε) × σ
  SendAzureDeleteRequest : GoString → σ → (OperationID × Option ε) × σ
  WaitForOperation : OperationID → Option χ → σ → Option ε × σ

/-! ## `testutils`: `chop` and the logging client -/

/-- The constant `maxlen` of `chop`. -/
def maxlen : Nat := 5000

/-- The function `chop`. -/
def chop (d : GoBytes) : GoString :=
  let s := d.string
  if s.length > maxlen then
    s.take maxlen ++ lit "..."
  else
    s

/-- The function `logOperation`; the result is the `*testing.T` after the call. -/
def logOperation {ε : Type} (t : T ε) (method url : GoString) (data : GoBytes)
    (oid : OperationID) (err : Option ε) : T ε :=
  let t := t.Logf "AZURE> %s %s\n" [.str method, .str url]
  let t := if data.isSome then t.Logf "   >>> %s\n" [.str (chop data)] else t
  match err with
  | some e => t.Logf "   <<< ERROR: %+v\n" [.err e]
  | none => t.Logf "   <<< OperationID: %s\n" [.str oid]

/-- The struct `logger`. Its `*testing.T` is shared state, so it is a component of
the state the methods run on. -/
structure logger (σ ε χ : Type) where
  Client : Client σ ε χ

/-- The method `logger.SendAzureGetRequest`. -/
def logger.SendAzureGetRequest {σ ε χ : Type} (l : logger σ ε χ) (url : GoString)
    (w : σ × T ε) : (GoBytes × Option ε) × (σ × T ε) :=
  let ((d, err), s) := l.Client.SendAzureGetRequest url w.1
  let t := w.2.Logf "AZURE> GET %s\n" [.str url]
  let t :=
    match err with
    | some e => t.Logf "   <<< ERROR: %+v\n" [.err e]
    | none => t.Logf "   <<< %s\n" [.str (chop d)]
  ((d, err), (s, t))

/-- The method `logger.SendAzurePostRequest`. -/
def logger.SendAzurePostRequest {σ ε χ : Type} (l : logger σ ε χ) (url : GoString)
    (data : GoBytes) (w : σ × T ε) : (OperationID × Option ε) × (σ × T ε) :=
  let ((oid, err), s) := l.Client.SendAzurePostRequest url data w.1
  let t := logOperation w.2 (lit "POST") url data oid err
  ((oid, err), (s, t))

/-- The method `logger.SendAzurePutRequest`. -/
def logger.SendAzurePutRequest {σ ε χ : Type} (l : logger σ ε χ) (url : GoString)
    (contentType : GoString) (data : GoBytes) (w : σ × T ε) :
    (OperationID × Option ε) × (σ × T ε) :=
  let ((oid, err), s) := l.Client.SendAzurePutRequest url contentType data w.1
  let t := logOperation w.2 (lit "PUT") url data oid err
  ((oid, err), (s, t))

/-- The method `logger.SendAzureDeleteRequest`. -/
def logger.SendAzureDeleteRequest {σ ε χ : Type} (l : logger σ ε χ) (url : GoString)
    (w : σ × T ε) : (OperationID × Option ε) × (σ × T ε) :=
  let ((oid, err), s) := l.Client.SendAzureDeleteRequest url w.1
  let t := logOperation w.2 (lit "DELETE") url none oid err
  ((oid, err), (s, t))

/-- The struct `logger` as a `management.Client`: the four methods above, and
`WaitForOperation` promoted from the embedded client. -/
def logger.toClient {σ ε χ : Type} (l : logger σ ε χ) : Azure.Client (σ × T ε) ε χ where
  SendAzureGetRequest := l.SendAzureGetRequest
  SendAzurePostRequest := l.SendAzurePostRequest
  SendAzurePutRequest := l.SendAzurePutRequest
  SendAzureDeleteRequest := l.SendAzureDeleteRequest
  WaitForOperation := fun id cancel w =>
    let (err, s) := l.Client.WaitForOperation id cancel w.1
    (err, (s, w.2))

/-- The function `os.Getenv` on an environment: the value of the variable, or the
empty string when it is not set. -/
def Getenv (env : String → Option GoString) (key : String) : GoString :=
  (env key).getD []

/-- The function `GetTestClient`. `DecodeString` is `base64.StdEncoding.DecodeString`
and `NewClient` is `management.NewClient`; both are taken as given, as arbitrary
operations on a state `ω`. The result is the outcome, the `*testing.T` and the
state afterwards. -/
def GetTestClient {σ ε χ ω : Type} (env : String → Option GoString)
    (DecodeString : GoString → ω → Except ε GoBytes × ω)
    (NewClient : GoString → GoBytes → ω → Except ε (Client σ ε χ) × ω)
    (t : T ε) (o : ω) : Outcome (Client (σ × T ε) ε χ) × T ε × ω :=
  let subid := Getenv env "AZSUBSCRIPTIONID"
  let certdata := Getenv env "AZCERTDATA"
  if subid = [] ∨ certdata = [] then
    (.skipped, t.Skip [.str (lit "AZSUBSCRIPTIONID or AZCERTDATA not set, skipping test")], o)
  else
    match DecodeString certdata o with
    | (.error err, o) => (.fatal, t.Fatal [.err err], o)
    | (.ok cert, o) =>
      match NewClient subid cert o with
      | (.error err, o) => (.fatal, t.Fatal [.err err], o)
      | (.ok client, o) => (.returned (logger.mk client).toClient, t, o)

/-! ## `vmutils`: waiting for operations -/

/-- The function `Await`; `async` is the `asyncFunc` argument. -/
def Await {σ ε χ : Type} (client : Client σ ε χ)
    (async : σ → (OperationID × Option ε) × σ) (s : σ) : Option ε × σ :=
  let ((requestID, err), s) := async s
  match err with
  | some e => (some e, s)
  | none => client.WaitForOperation requestID none s

/-- The loop of `TestDeployPlatformCaptureRedeploy` that waits for the deployment to
enter the running state:

    status := vm.DeploymentStatusDeploying
    for status != vm.DeploymentStatusRunning {
      deployment, err := vmc.GetDeployment(vmname, vmname)
      if err != nil { t.Error(err); break }
      status = deployment.Status
    }

`GetDeployment` is the call `vmc.GetDeployment(vmname, vmname)`, which returns the
status of the deployment it read and an error; `target` is the status waited for,
the constant `vm.DeploymentStatusRunning`, and the argument after the fuel is the
current value of `status`, initially `vm.DeploymentStatusDeploying`. The fuel bounds
the number of iterations; `none` means the loop is still running when it is used up.
The result is the final `status` and the state and `*testing.T` after the loop. -/
def deploymentStatusLoop {σ ε δ : Type} [DecidableEq δ]
    (GetDeployment : σ → (δ × Option ε) × σ) (target : δ) :
    Nat → δ → σ → T ε → Option (δ × σ × T ε)
  | fuel, status, s, t =>
    if status = target then
      some (status, s, t)
    else
      match fuel with
      | 0 => none
      | fuel + 1 =>
        match GetDeployment s with
        | ((_, some err), s) => some (status, s, t.Error [.err err])
        | ((deploymentStatus, none), s) =>
          deploymentStatusLoop GetDeployment target fuel deploymentStatus s t

/-! ## `vmutils`: choosing an image -/

/-- The fields of `osimage.OSImage` that the sources read. -/
structure OSImage where
  Name : GoString
  Category : GoString
  ImageFamily : GoString
  PublishedDate : GoString
  deriving DecidableEq, Repr

/-- The fields of `vmimage.VMImage` that the sources read. -/
structure VMImage where
  Name : GoString
  Description : GoString
  PublishedDate : GoString
  deriving DecidableEq, Repr

/-- The function `GetOSImage`. `listing` is what `osc.ListOSImages()` returned: an
error, or the images of the response. -/
def GetOSImage {ε : Type} (t : T ε) (listing : Except ε (List OSImage))
    (filter : OSImage → Bool) : Outcome OSImage × T ε :=
  let t := t.Log [.str (lit "Selecting OS image")]
  match listing with
  | .error err => (.fatal, t.Fatal [.err err])
  | .ok allimages =>
    let filtered := allimages.foldl
      (fun filtered im => if filter im then filtered ++ [im] else filtered) []
    if filtered.length = 0 then
      (.fatal, t.Fatal [.str (lit "Filter too restrictive, no images left?")])
    else
      match filtered[0]? with
      | none => (.panicked, t)
      | some first =>
        let image := filtered.foldl
          (fun image im => if im.PublishedDate > image.PublishedDate then im else image) first
        (.returned image, t.Logf "Selecting image '%s'" [.str image.Name])

/-- The function `GetVMImage`. `listing` is what `ListVirtualMachineImages()`
returned: an error, or the images of the response. -/
def GetVMImage {ε : Type} (t : T ε) (listing : Except ε (List VMImage))
    (filter : VMImage → Bool) : Outcome VMImage × T ε :=
  let t := t.Log [.str (lit "Selecting VM image")]
  match listing with
  | .error err => (.fatal, t.Fatal [.err err])
  | .ok allimages =>
    let filtered := allimages.foldl
      (fun filtered im => if filter im then filtered ++ [im] else filtered) []
    if filtered.length = 0 then
      (.fatal, t.Fatal [.str (lit "Filter too restrictive, no images left?")])
    else
      match filtered[0]? with
      | none => (.panicked, t)
      | some first =>
        let image := filtered.foldl
          (fun image im => if im.PublishedDate > image.PublishedDate then im else image) first
        (.returned image, t.Logf "Selecting image '%s'" [.str image.Name])

/-! ## `vmutils`: random names and passwords -/

/-- How a function that may panic and whose loop is run with fuel ends. -/
inductive Run (α : Type) where
  | ok (a : α)
  | panic
  | outOfFuel
  deriving DecidableEq, Repr

/-- The method `rnd.Intn(n)` of a random source whose next raw output is `raw`: it
panics when `n <= 0` and otherwise returns a number in `[0, n)`; every such number
is returned for some `raw`. -/
def Intn (raw : Nat) (n : Int) : Option Nat :=
  if n ≤ 0 then none else some (raw % n.toNat)

/-- The loop of `GenerateString`: `rnd k` is the raw output of the random source at
its `k`-th draw, `k` counts the draws made so far and `str` is the string so far. -/
def GenerateString.loop (rnd : Nat → Nat) (length : Int) (frm : GoString) :
    Nat → Nat → GoString → Run GoString
  | fuel, k, str =>
    if (str.length : Int) < length then
      match fuel with
      | 0 => .outOfFuel
      | fuel + 1 =>
        match Intn (rnd k) frm.length with
        | none => .panic
        | some j =>
          match frm[j]? with
          | none => .panic
          | some b => GenerateString.loop rnd length frm fuel (k + 1) (str ++ byteToString b)
    else
      .ok str

/-- The function `GenerateString(length, from)`, run for at most `fuel` iterations
with the random source `rnd` that it creates. -/
def GenerateString (fuel : Nat) (rnd : Nat → Nat) (length : Int) (frm : GoString) :
    Run GoString :=
  GenerateString.loop rnd length frm fuel 0 []

/-- The function `GenerateName`. -/
def GenerateName (fuel : Nat) (rnd : Nat → Nat) : Run GoString :=
  let frm := lit "1234567890abcdefghijklmnopqrstuvwxyz"
  match GenerateString fuel rnd 12 frm with
  | .ok s => .ok (lit "sdk" ++ s)
  | .panic => .panic
  | .outOfFuel => .outOfFuel

/-- The slice expression `s[lo:hi]` of a string, which panics unless
`0 <= lo <= hi <= len(s)`. -/
def slice (s : GoString) (lo hi : Int) : Option GoString :=
  if 0 ≤ lo ∧ lo ≤ hi ∧ hi ≤ s.length then
    some ((s.take hi.toNat).drop lo.toNat)
  else
    none

/-- The function `GeneratePassword`. `rnd1`, `rnd2` and `rnd3` are the random sources
that the three calls of `GenerateString` create and `raw` is the first raw output of
the source that `GeneratePassword` creates itself. -/
def GeneratePassword (fuel : Nat) (rnd1 rnd2 rnd3 : Nat → Nat) (raw : Nat) : Run GoString :=
  match GenerateString fuel rnd1 20 (lit "1234567890") with
  | .panic => .panic
  | .outOfFuel => .outOfFuel
  | .ok s1 =>
    match GenerateString fuel rnd2 20 (lit "abcdefghijklmnopqrstuvwxyz") with
    | .panic => .panic
    | .outOfFuel => .outOfFuel
    | .ok s2 =>
      match GenerateString fuel rnd3 20 (lit "ABCDEFGHIJKLMNOPQRSTUVWXYZ") with
      | .panic => .panic
      | .outOfFuel => .outOfFuel
      | .ok s3 =>
        let pw := s1 ++ s2 ++ s3
        match Intn raw ((pw.length : Int) - 2) with
        | none => .panic
        | some r =>
          let i : Int := (r : Int) + 1
          match slice pw i pw.length, slice pw 0 (i - 1) with
          | some tl, some hd => .ok (tl ++ hd)
          | _, _ => .panic

/-! ## Test doubles used to state which calls are made -/

/-- A call of a collaborator. -/
inductive Call (χ : Type) where
  | async
  | get (url : GoString)
  | post (url : GoString) (data : GoBytes)
  | put (url contentType : GoString) (data : GoBytes)
  | delete (url : GoString)
  | wait (id : OperationID) (cancel : Option χ)
  | decode (s : GoString)
  | newClient (subid : GoString) (cert : GoBytes)
  deriving DecidableEq, Repr

/-- The client `c` with a record of the calls made to it: it behaves as `c` does on
the first component of the state and appends every call to the second. -/
def recording {σ ε χ : Type} (c : Client σ ε χ) : Client (σ × List (Call χ)) ε χ where
  SendAzureGetRequest := fun url w =>
    let (r, s) := c.SendAzureGetRequest url w.1
    (r, (s, w.2 ++ [.get url]))
  SendAzurePostRequest := fun url data w =>
    let (r, s) := c.SendAzurePostRequest url data w.1
    (r, (s, w.2 ++ [.post url data]))
  SendAzurePutRequest := fun url contentType data w =>
    let (r, s) := c.SendAzurePutRequest url contentType data w.1
    (r, (s, w.2 ++ [.put url contentType data]))
  SendAzureDeleteRequest := fun url w =>
    let (r, s) := c.SendAzureDeleteRequest url w.1
    (r, (s, w.2 ++ [.delete url]))
  WaitForOperation := fun id cancel w =>
    let (r, s) := c.WaitForOperation id cancel w.1
    (r, (s, w.2 ++ [.wait id cancel]))

/-- The submit function `async` with a record of its invocations. -/
def recordingAsync {σ ε χ : Type} (async : σ → (OperationID × Option ε) × σ) :
    σ × List (Call χ) → (OperationID × Option ε) × (σ × List (Call χ)) :=
  fun w =>
    let (r, s) := async w.1
    (r, (s, w.2 ++ [.async]))

/-- A scripted `GetDeployment`: the state is the number of fetches issued so far,
and the `k`-th fetch returns `results k`. -/
def scripted {ρ : Type} (results : Nat → ρ) : Nat → ρ × Nat :=
  fun k => (results k, k + 1)

/-- The status held by the status loop after `n` fetches that all succeeded, when
the `k`-th fetch returns `results k` and the status is `initial` before the first. -/
def statusAfter {ε δ : Type} (results : Nat → δ × Option ε) (initial : δ) : Nat → δ
  | 0 => initial
  | n + 1 => (results n).1

/-- The snapshot sequence running, stopping, stopped, stopped, and so on, every
fetch succeeding. -/
def stoppingSnapshots : Nat → String × Option String
  | 0 => ("running", none)
  | 1 => ("stopping", none)
  | _ => ("stopped", none)

/-- A client on a counter of the calls made to it: requests succeed, and every
wait reports the failed operation "Conflict". -/
def conflictClient : Client Nat String Unit where
  SendAzureGetRequest := fun url s => ((some url, none), s + 1)
  SendAzurePostRequest := fun url _ s => ((url, none), s + 1)
  SendAzurePutRequest := fun url _ _ s => ((url, none), s + 1)
  SendAzureDeleteRequest := fun url s => ((url, none), s + 1)
  WaitForOperation := fun _ _ s => (some "Conflict", s + 1)

/-- A submit function that fails with the error "refused". -/
def refusedSubmit : Nat → (OperationID × Option String) × Nat :=
  fun s => ((lit "op-1", some "refused"), s + 1)

/-- A submit function that succeeds with the handle "op-1". -/
def acceptedSubmit : Nat → (OperationID × Option String) × Nat :=
  fun s => ((lit "op-1", none), s + 1)

/-- An empty `*testing.T`. -/
def freshT : T String := ⟨[], false⟩

/-- An environment with both variables of `GetTestClient` set. -/
def fullEnv : String → Option GoString :=
  fun key =>
    if key = "AZSUBSCRIPTIONID" then some (lit "sub-1")
    else if key = "AZCERTDATA" then some (lit "Y2VydA==")
    else none

/-- An environment with no variable set. -/
def emptyEnv : String → Option GoString := fun _ => none

/-- A decoder double on a counter of the calls made: it accepts every input. -/
def acceptingDecode : GoString → Nat → Except String GoBytes × Nat :=
  fun s o => (.ok (some s), o + 1)

/-- A double of `management.NewClient` on a counter of the calls made: it always
returns `conflictClient`. -/
def acceptingNewClient : GoString → GoBytes → Nat → Except String (Client Nat String Unit) × Nat :=
  fun _ _ o => (.ok conflictClient, o + 1)

/-- Three images for examples; the second and third have the same, latest date. -/
def sampleImages : List OSImage :=
  [⟨lit "a", lit "Public", lit "Ubuntu", lit "2015-01-01"⟩,
   ⟨lit "b", lit "Public", lit "Ubuntu", lit "2015-03-01"⟩,
   ⟨lit "c", lit "Public", lit "Ubuntu", lit "2015-03-01"⟩]


/-! ## Properties -/

/-! ### `chop` -/

theorem lit_dots_length : (lit "...").length = 3 := by decide

theorem chop_length_eq (d : GoBytes) :
    (chop d).length =
      min d.string.length maxlen + (if maxlen < d.string.length then 3 else 0) := by
  simp only [chop]
  split
  · rw [List.length_append, lit_dots_length, List.length_take]
    omega
  · omega

/-- Claim C6: a body `d` of at most 5000 bytes is returned by `chop` unchanged, and a
longer one as its first 5000 bytes followed by "..."; so the first 5000 bytes of
`d`, which begin `d`, always begin `chop d`, and `chop d` is that beginning
followed by the added "..." exactly when `d` has more than 5000 bytes. -/
theorem chop_spec (d : GoBytes) :
    (d.string.length ≤ 5000 → chop d = d.string) ∧
    (5000 < d.string.length → chop d = d.string.take 5000 ++ lit "...") ∧
    (d.string.take 5000 <+: d.string ∧ d.string.take 5000 <+: chop d) ∧
    (chop d = d.string.take 5000 ++ lit "..." ↔ 5000 < d.string.length) := by
  refine ⟨?_, ?_, ⟨ List.take_prefix _ _, ?_⟩, ?_⟩
  · intro h
    simp only [chop, maxlen]
    rw [if_neg (by omega)]
  · intro h
    simp only [chop, maxlen]
    rw [if_pos (by omega)]
  · simp only [chop, maxlen]
    split
    · exact List.prefix_append _ _
    · rw [List.take_of_length_le (by omega)]
  · constructor
    · intro h
      by_contra hle
      have hlen := congrArg List.length h
      simp only [chop, maxlen] at hlen
      rw [if_neg hle, List.length_append, lit_dots_length, List.length_take] at hlen
      omega
    · intro h
      simp only [chop, maxlen]
      rw [if_pos (by omega)]

/-- Claim C6 at the three-byte body "abc", which is returned unchanged. -/
theorem chop_spec_witness :
    (GoBytes.string (some (lit "abc"))).length ≤ 5000 ∧ chop (some (lit "abc")) = lit "abc" :=
  ⟨by decide, (chop_spec (some (lit "abc"))).1 (by decide)⟩

/-- Claim C7 as stated fails: for a body of 5001 bytes, `chop` gives 5003 bytes, which
is more than `maxlen`. -/
theorem chop_exceeds_maxlen :
    (chop (some (List.replicate 5001 65))).length = 5003 ∧
    ¬ (chop (some (List.replicate 5001 65))).length ≤ maxlen := by
  have h := chop_length_eq (some (List.replicate 5001 65))
  rw [show GoBytes.string (some (List.replicate 5001 65)) = List.replicate 5001 65 from rfl,
    List.length_replicate] at h
  have h2 : (chop (some (List.replicate 5001 65))).length = 5003 := by
    rw [h]; simp [maxlen]
  refine ⟨h2, ?_⟩
  rw [h2]; simp [maxlen]

/-- Claim C7, amended: the text `chop d` has the first `maxlen` bytes of `d` at most,
and three bytes more when `d` is longer than `maxlen`; so its length is at most
`maxlen + 3`, which is 5003. -/
theorem chop_length (d : GoBytes) :
    (chop d).length =
      min d.string.length maxlen + (if maxlen < d.string.length then 3 else 0) ∧
    (chop d).length ≤ maxlen + 3 ∧ maxlen + 3 = 5003 := by
  have h := chop_length_eq d
  refine ⟨h, ?_, rfl⟩
  rw [h]
  split <;> omega

/-! ### The logging client -/

/-- Claim C4: each of the four request methods of `logger` returns the pair that the
wrapped client's method returns for the same arguments and leaves the wrapped
client's state as that one call leaves it; on a wrapped client that records its
calls, exactly that one call is added to the record. -/
theorem logger_forwards {σ ε χ : Type} (c : Client σ ε χ) (url contentType : GoString)
    (data : GoBytes) (s : σ) (t : T ε) (calls : List (Call χ)) :
    (((logger.mk c).SendAzureGetRequest url (s, t)).1 = (c.SendAzureGetRequest url s).1 ∧
     ((logger.mk c).SendAzureGetRequest url (s, t)).2.1 = (c.SendAzureGetRequest url s).2 ∧
     ((logger.mk (recording c)).SendAzureGetRequest url ((s, calls), t)).2.1.2
        = calls ++ [.get url]) ∧
    (((logger.mk c).SendAzurePostRequest url data (s, t)).1
        = (c.SendAzurePostRequest url data s).1 ∧
     ((logger.mk c).SendAzurePostRequest url data (s, t)).2.1
        = (c.SendAzurePostRequest url data s).2 ∧
     ((logger.mk (recording c)).SendAzurePostRequest url data ((s, calls), t)).2.1.2
        = calls ++ [.post url data]) ∧
    (((logger.mk c).SendAzurePutRequest url contentType data (s, t)).1
        = (c.SendAzurePutRequest url contentType data s).1 ∧
     ((logger.mk c).SendAzurePutRequest url contentType data (s, t)).2.1
        = (c.SendAzurePutRequest url contentType data s).2 ∧
     ((logger.mk (recording c)).SendAzurePutRequest url contentType data ((s, calls), t)).2.1.2
        = calls ++ [.put url contentType data]) ∧
    (((logger.mk c).SendAzureDeleteRequest url (s, t)).1 = (c.SendAzureDeleteRequest url s).1 ∧
     ((logger.mk c).SendAzureDeleteRequest url (s, t)).2.1
        = (c.SendAzureDeleteRequest url s).2 ∧
     ((logger.mk (recording c)).SendAzureDeleteRequest url ((s, calls), t)).2.1.2
        = calls ++ [.delete url]) := by
  simp [logger.SendAzureGetRequest, logger.SendAzurePostRequest, logger.SendAzurePutRequest,
    logger.SendAzureDeleteRequest, recording]

/-! ### `GetTestClient` -/

theorem Getenv_eq_nil (env : String → Option GoString) (key : String) :
    Getenv env key = [] ↔ env key = none ∨ env key = some [] := by
  unfold Getenv
  cases env key <;> simp

/-- Claim C5: when `AZSUBSCRIPTIONID` or `AZCERTDATA` is unset or empty, `GetTestClient`
skips the test and the state that decoding and client creation act on is untouched;
when both are non-empty, it ends the test fatally with the error of the decoding if
the decoding fails, fatally with the error of `NewClient` if that fails on the
decoded bytes, and otherwise returns the logging wrapper of the created client. -/
theorem GetTestClient_spec {σ ε χ ω : Type} (env : String → Option GoString)
    (DecodeString : GoString → ω → Except ε GoBytes × ω)
    (NewClient : GoString → GoBytes → ω → Except ε (Client σ ε χ) × ω)
    (t : T ε) (o : ω) :
    ((env "AZSUBSCRIPTIONID" = none ∨ env "AZSUBSCRIPTIONID" = some [] ∨
        env "AZCERTDATA" = none ∨ env "AZCERTDATA" = some []) →
      GetTestClient env DecodeString NewClient t o
        = (.skipped,
           t.Skip [.str (lit "AZSUBSCRIPTIONID or AZCERTDATA not set, skipping test")], o)) ∧
    (∀ subid certdata : GoString,
      env "AZSUBSCRIPTIONID" = some subid → subid ≠ [] →
      env "AZCERTDATA" = some certdata → certdata ≠ [] →
      (∀ err o1, DecodeString certdata o = (.error err, o1) →
        GetTestClient env DecodeString NewClient t o = (.fatal, t.Fatal [.err err], o1)) ∧
      (∀ cert o1 err o2, DecodeString certdata o = (.ok cert, o1) →
        NewClient subid cert o1 = (.error err, o2) →
        GetTestClient env DecodeString NewClient t o = (.fatal, t.Fatal [.err err], o2)) ∧
      (∀ cert o1 client o2, DecodeString certdata o = (.ok cert, o1) →
        NewClient subid cert o1 = (.ok client, o2) →
        GetTestClient env DecodeString NewClient t o
          = (.returned (logger.mk client).toClient, t, o2))) := by
  constructor
  · intro h
    have h' : Getenv env "AZSUBSCRIPTIONID" = [] ∨ Getenv env "AZCERTDATA" = [] := by
      rw [Getenv_eq_nil, Getenv_eq_nil]
      tauto
    simp only [GetTestClient]
    rw [if_pos h']
  · intro subid certdata hs hsne hc hcne
    have h1 : Getenv env "AZSUBSCRIPTIONID" = subid := by simp [Getenv, hs]
    have h2 : Getenv env "AZCERTDATA" = certdata := by simp [Getenv, hc]
    have h' : ¬ (subid = [] ∨ certdata = []) := by tauto
    refine ⟨?_, ?_, ?_⟩
    · intro err o1 hd
      simp only [GetTestClient, h1, h2]
      rw [if_neg h', hd]
    · intro cert o1 err o2 hd hn
      simp only [GetTestClient, h1, h2]
      rw [if_neg h', hd]
      simp only [hn]
    · intro cert o1 client o2 hd hn
      simp only [GetTestClient, h1, h2]
      rw [if_neg h', hd]
      simp only [hn]

/-- Claim C5 at an environment with no variable set, where the test is skipped with
no call made, and at one with both set, where the client is returned after one
decoding and one client creation. -/
theorem GetTestClient_spec_witness :
    (emptyEnv "AZSUBSCRIPTIONID" = none ∧
      GetTestClient emptyEnv acceptingDecode acceptingNewClient freshT 0
        = (.skipped,
           freshT.Skip [.str (lit "AZSUBSCRIPTIONID or AZCERTDATA not set, skipping test")],
           0)) ∧
    (fullEnv "AZSUBSCRIPTIONID" = some (lit "sub-1") ∧
      fullEnv "AZCERTDATA" = some (lit "Y2VydA==") ∧
      GetTestClient fullEnv acceptingDecode acceptingNewClient freshT 0
        = (.returned (logger.mk conflictClient).toClient, freshT, 2)) :=
  ⟨⟨rfl, (GetTestClient_spec emptyEnv acceptingDecode acceptingNewClient freshT 0).1
      (Or.inl rfl)⟩,
   ⟨by decide, by decide,
    ((GetTestClient_spec fullEnv acceptingDecode acceptingNewClient freshT 0).2
      (lit "sub-1") (lit "Y2VydA==") (by decide) (by decide) (by decide) (by decide)).2.2
      (some (lit "Y2VydA==")) 1 conflictClient 2 rfl rfl⟩⟩

/-! ### `Await` -/

/-- Claim C1: when the submit function returns a non-nil error `e`, `Await` returns
`e` and the state is the one the submit function left; on a client and a submit
function that record their calls, the record gains the one call of the submit
function and no call of `WaitForOperation`. -/
theorem Await_submission_error {σ ε χ : Type} (client : Client σ ε χ)
    (async : σ → (OperationID × Option ε) × σ) (s s' : σ) (h : OperationID) (e : ε)
    (hasync : async s = ((h, some e), s')) :
    Await client async s = (some e, s') ∧
    ∀ calls : List (Call χ),
      Await (recording client) (recordingAsync async) (s, calls)
        = (some e, (s', calls ++ [.async])) := by
  constructor
  · simp [Await, hasync]
  · intro calls
    simp [Await, recordingAsync, hasync]

/-- Claim C1 at a submit function that fails with "refused". -/
theorem Await_submission_error_witness :
    refusedSubmit 0 = ((lit "op-1", some "refused"), 1) ∧
    Await conflictClient refusedSubmit 0 = (some "refused", 1) ∧
    ∀ calls : List (Call Unit),
      Await (recording conflictClient) (recordingAsync refusedSubmit) (0, calls)
        = (some "refused", (1, calls ++ [.async])) :=
  ⟨rfl, Await_submission_error conflictClient refusedSubmit 0 1 (lit "op-1") "refused" rfl⟩

/-- Claim C2: when the submit function returns the handle `h` and a nil error, `Await`
returns what `client.WaitForOperation(h, nil)` returns on the state the submit
function left; on a client and a submit function that record their calls, the
record gains one call of the submit function followed by one call of
`WaitForOperation` with `h` and nil. So `Await` returns nil exactly when the wait
does, and an error of the wait is returned unchanged. -/
theorem Await_submitted {σ ε χ : Type} (client : Client σ ε χ)
    (async : σ → (OperationID × Option ε) × σ) (s s' : σ) (h : OperationID)
    (hasync : async s = ((h, none), s')) :
    Await client async s = client.WaitForOperation h none s' ∧
    (∀ calls : List (Call χ),
      Await (recording client) (recordingAsync async) (s, calls)
        = ((client.WaitForOperation h none s').1,
           ((client.WaitForOperation h none s').2, calls ++ [.async, .wait h none]))) ∧
    ((Await client async s).1 = none ↔ (client.WaitForOperation h none s').1 = none) ∧
    (∀ e : ε, (client.WaitForOperation h none s').1 = some e →
      (Await client async s).1 = some e) := by
  have h1 : Await client async s = client.WaitForOperation h none s' := by
    simp [Await, hasync]
  refine ⟨h1, ?_, by rw [h1], fun e he => by rw [h1]; exact he⟩
  intro calls
  simp [Await, recordingAsync, recording, hasync]

/-- Claim C2 at a submit function that succeeds and a client whose wait reports the
failed operation "Conflict". -/
theorem Await_submitted_witness :
    acceptedSubmit 0 = ((lit "op-1", none), 1) ∧
    Await conflictClient acceptedSubmit 0 = (some "Conflict", 2) ∧
    (∀ calls : List (Call Unit),
      Await (recording conflictClient) (recordingAsync acceptedSubmit) (0, calls)
        = (some "Conflict", (2, calls ++ [.async, .wait (lit "op-1") none]))) :=
  ⟨rfl, (Await_submitted conflictClient acceptedSubmit 0 1 (lit "op-1") rfl).1,
   (Await_submitted conflictClient acceptedSubmit 0 1 (lit "op-1") rfl).2.1⟩

/-! ### The deployment status loop -/

theorem deploymentStatusLoop_done {σ ε δ : Type} [DecidableEq δ]
    (get : σ → (δ × Option ε) × σ) (target : δ) (fuel : Nat) (s : σ) (t : T ε) :
    deploymentStatusLoop get target fuel target s t = some (target, s, t) := by
  cases fuel <;> simp [deploymentStatusLoop]

theorem deploymentStatusLoop_zero {σ ε δ : Type} [DecidableEq δ]
    (get : σ → (δ × Option ε) × σ) (target status : δ) (s : σ) (t : T ε)
    (h : status ≠ target) :
    deploymentStatusLoop get target 0 status s t = none := by
  simp [deploymentStatusLoop, h]

theorem deploymentStatusLoop_succ {σ ε δ : Type} [DecidableEq δ]
    (get : σ → (δ × Option ε) × σ) (target status : δ) (fuel : Nat) (s : σ) (t : T ε)
    (h : status ≠ target) :
    deploymentStatusLoop get target (fuel + 1) status s t =
      match get s with
      | ((_, some err), s) => some (status, s, t.Error [.err err])
      | ((deploymentStatus, none), s) =>
        deploymentStatusLoop get target fuel deploymentStatus s t := by
  rw [deploymentStatusLoop, if_neg h]

theorem deploymentStatusLoop_skip {ε δ : Type} [DecidableEq δ]
    (results : Nat → δ × Option ε) (target initial : δ) (t : T ε) (hinit : initial ≠ target)
    (n : Nat) (hbefore : ∀ k, k < n → (results k).2 = none ∧ (results k).1 ≠ target) :
    ∀ m, m ≤ n → ∀ fuel,
      deploymentStatusLoop (scripted results) target (m + fuel) initial 0 t =
        deploymentStatusLoop (scripted results) target fuel (statusAfter results initial m) m t ∧
      statusAfter results initial m ≠ target := by
  intro m
  induction m with
  | zero => intro _ fuel; simpa [statusAfter] using hinit
  | succ m ih =>
    intro hm fuel
    obtain ⟨h1, h2⟩ := ih (by omega) (fuel + 1)
    obtain ⟨hk1, hk2⟩ := hbefore m (by omega)
    refine ⟨?_, by simpa [statusAfter] using hk2⟩
    rw [show m + 1 + fuel = m + (fuel + 1) by omega, h1, deploymentStatusLoop_succ _ _ _ _ _ _ h2]
    have : scripted results m = (((results m).1, none), m + 1) := by
      simp only [scripted]; rw [← hk1]
    rw [this]
    simp [statusAfter]

/-- Claim C3: feed the status loop the fetch results `results 0`, `results 1`, ...,
with a status before the first fetch that is not the target (as `Deploying` is not
`Running`), and let fetch `n` be the first one that fails or observes the target
status. If it observes the target, the loop ends with success after exactly
`n + 1` fetches, nothing reported to the test; if it fails with `e`, the loop ends
after exactly `n + 1` fetches with `e` reported through `t.Error`; and with `n`
iterations or fewer the loop has not ended. -/
theorem deploymentStatusLoop_spec {ε δ : Type} [DecidableEq δ]
    (results : Nat → δ × Option ε) (target initial : δ) (t : T ε) (n : Nat)
    (hinit : initial ≠ target)
    (hbefore : ∀ k, k < n → (results k).2 = none ∧ (results k).1 ≠ target) :
    ((results n).2 = none → (results n).1 = target → ∀ fuel, n < fuel →
      deploymentStatusLoop (scripted results) target fuel initial 0 t
        = some (target, n + 1, t)) ∧
    (∀ e, (results n).2 = some e → ∀ fuel, n < fuel →
      deploymentStatusLoop (scripted results) target fuel initial 0 t
        = some (statusAfter results initial n, n + 1, t.Error [.err e])) ∧
    (∀ fuel, fuel ≤ n →
      deploymentStatusLoop (scripted results) target fuel initial 0 t = none) := by
  have skip := deploymentStatusLoop_skip results target initial t hinit n hbefore
  refine ⟨?_, ?_, ?_⟩
  · intro hn1 hn2 fuel hfuel
    obtain ⟨h1, h2⟩ := skip n le_rfl (fuel - n - 1 + 1)
    rw [show fuel = n + (fuel - n - 1 + 1) by omega, h1,
      deploymentStatusLoop_succ _ _ _ _ _ _ h2]
    have : scripted results n = ((target, none), n + 1) := by
      simp only [scripted]; rw [← hn1, ← hn2]
    rw [this]
    simp only
    exact deploymentStatusLoop_done _ _ _ _ _
  · intro e he fuel hfuel
    obtain ⟨h1, h2⟩ := skip n le_rfl (fuel - n - 1 + 1)
    rw [show fuel = n + (fuel - n - 1 + 1) by omega, h1,
      deploymentStatusLoop_succ _ _ _ _ _ _ h2]
    have : scripted results n = (((results n).1, some e), n + 1) := by
      simp only [scripted]; rw [← he]
    rw [this]
  · intro fuel hfuel
    obtain ⟨h1, h2⟩ := skip fuel hfuel 0
    rw [show fuel = fuel + 0 by omega, h1]
    exact deploymentStatusLoop_zero _ _ _ _ _ h2

/-- Claim C3 at the target "stopped" and the snapshots running, stopping, stopped:
success after exactly 3 fetches. -/
theorem deploymentStatusLoop_spec_witness :
    ("deploying" ≠ "stopped" ∧
      ∀ k, k < 2 → (stoppingSnapshots k).2 = none ∧ (stoppingSnapshots k).1 ≠ "stopped") ∧
    deploymentStatusLoop (scripted stoppingSnapshots) "stopped" 5 "deploying" 0 freshT
      = some ("stopped", 3, freshT) :=
  ⟨⟨by decide, by decide⟩,
   (deploymentStatusLoop_spec stoppingSnapshots "stopped" "deploying" freshT 2
    (by decide) (by decide)).1 rfl rfl 5 (by decide)⟩

/-! ### Choosing an image -/

theorem foldl_collect {α : Type} (p : α → Bool) (l : List α) :
    ∀ acc : List α,
      l.foldl (fun filtered im => if p im then filtered ++ [im] else filtered) acc
        = acc ++ l.filter p := by
  induction l with
  | nil => intro acc; simp
  | cons x l ih =>
    intro acc
    rw [List.foldl_cons, ih]
    cases hx : p x <;> simp [List.filter_cons, hx]

theorem foldl_latest {α : Type} (date : α → GoString) (l : List α) (cur : α) :
    ∃ pre post,
      cur :: l = pre ++ l.foldl (fun image im => if date im > date image then im else image) cur
        :: post ∧
      (∀ x ∈ pre,
        date x < date (l.foldl (fun image im => if date im > date image then im else image) cur)) ∧
      (∀ x ∈ post,
        date x ≤ date (l.foldl (fun image im => if date im > date image then im else image) cur))
    := by
  induction l using List.reverseRecOn with
  | nil => exact ⟨[], [], by simp⟩
  | append_singleton l x ih =>
    obtain ⟨pre, post, hdec, hpre, hpost⟩ := ih
    rw [List.foldl_append, List.foldl_cons, List.foldl_nil]
    by_cases hx : date x > date (l.foldl (fun image im => if date im > date image then im else image) cur)
    · rw [if_pos hx]
      refine ⟨cur :: l, [], by simp, ?_, by simp⟩
      intro y hy
      rw [hdec] at hy
      rcases List.mem_append.1 hy with h | h
      · exact lt_trans (hpre y h) hx
      · rcases List.mem_cons.1 h with h | h
        · rw [h]; exact hx
        · exact lt_of_le_of_lt (hpost y h) hx
    · rw [if_neg hx]
      refine ⟨pre, post ++ [x], ?_, hpre, ?_⟩
      · rw [← List.cons_append, hdec]; simp
      · intro y hy
        rcases List.mem_append.1 hy with h | h
        · exact hpost y h
        · rw [List.mem_singleton.1 h]; exact not_lt.1 hx

theorem latest_of_filter {α : Type} (p : α → Bool) (date : α → GoString) (allimages : List α)
    (first : α) (rest : List α) (hf : allimages.filter p = first :: rest) :
    ∃ pre post,
      allimages = pre ++
        (first :: rest).foldl (fun image im => if date im > date image then im else image) first
        :: post ∧
      p ((first :: rest).foldl
        (fun image im => if date im > date image then im else image) first) = true ∧
      (∀ x ∈ pre, p x = true → date x <
        date ((first :: rest).foldl
          (fun image im => if date im > date image then im else image) first)) ∧
      (∀ x ∈ post, p x = true → date x ≤
        date ((first :: rest).foldl
          (fun image im => if date im > date image then im else image) first)) := by
  rw [List.foldl_cons, if_neg (lt_irrefl _)]
  obtain ⟨pre, post, hdec, hpre, hpost⟩ := foldl_latest date rest first
  generalize rest.foldl (fun image im => if date im > date image then im else image) first
    = image at hdec hpre hpost ⊢
  rw [hdec, List.filter_eq_append_iff] at hf
  obtain ⟨l1, l2, hl, h1, h2⟩ := hf
  rw [List.filter_eq_cons_iff] at h2
  obtain ⟨m1, m2, hm, hm1, hpi, hm2⟩ := h2
  refine ⟨l1 ++ m1, m2, by rw [hl, hm, List.append_assoc], hpi, ?_, ?_⟩
  · intro x hx hpx
    rcases List.mem_append.1 hx with h | h
    · exact hpre x (by rw [← h1]; exact List.mem_filter.2 ⟨h, hpx⟩)
    · exact absurd hpx (hm1 x h)
  · intro x hx hpx
    exact hpost x (by rw [← hm2]; exact List.mem_filter.2 ⟨hx, hpx⟩)

/-- Claim C8: for every list of images that the listing returned and every filter,
`GetOSImage` and `GetVMImage` end the test fatally exactly when no image passes the
filter; when one does, they return (without a panic) an image of the list that
passes the filter, such that every image before it that passes the filter has a
strictly smaller `PublishedDate` and every image after it that passes the filter has
a smaller or equal one. -/
theorem GetImage_spec {ε : Type} (t : T ε) :
    (∀ (allimages : List OSImage) (filter : OSImage → Bool),
      ((GetOSImage t (.ok allimages) filter).1 = .fatal ↔
        ∀ im ∈ allimages, filter im = false) ∧
      ((∃ im ∈ allimages, filter im = true) →
        ∃ image pre post,
          (GetOSImage t (.ok allimages) filter).1 = .returned image ∧
          allimages = pre ++ image :: post ∧ filter image = true ∧
          (∀ x ∈ pre, filter x = true → x.PublishedDate < image.PublishedDate) ∧
          (∀ x ∈ post, filter x = true → x.PublishedDate ≤ image.PublishedDate))) ∧
    (∀ (allimages : List VMImage) (filter : VMImage → Bool),
      ((GetVMImage t (.ok allimages) filter).1 = .fatal ↔
        ∀ im ∈ allimages, filter im = false) ∧
      ((∃ im ∈ allimages, filter im = true) →
        ∃ image pre post,
          (GetVMImage t (.ok allimages) filter).1 = .returned image ∧
          allimages = pre ++ image :: post ∧ filter image = true ∧
          (∀ x ∈ pre, filter x = true → x.PublishedDate < image.PublishedDate) ∧
          (∀ x ∈ post, filter x = true → x.PublishedDate ≤ image.PublishedDate))) := by
  constructor
  · intro allimages filter
    simp only [GetOSImage, foldl_collect, List.nil_append]
    rcases hf : allimages.filter filter with _ | ⟨first, rest⟩
    · have hnone : ∀ im ∈ allimages, filter im = false := by
        intro im him
        cases hp : filter im
        · rfl
        · have := List.mem_filter.2 ⟨him, hp⟩
          rw [hf] at this
          exact absurd this (List.not_mem_nil _)
      refine ⟨by simpa using hnone, ?_⟩
      rintro ⟨im, him, hp⟩
      rw [hnone im him] at hp
      exact absurd hp (by decide)
    · obtain ⟨pre, post, hdec, hp, hpre, hpost⟩ :=
        latest_of_filter filter OSImage.PublishedDate allimages first rest hf
      have hfirst : first ∈ allimages ∧ filter first = true :=
        List.mem_filter.1 (by rw [hf]; exact List.mem_cons_self _ _)
      constructor
      · simp only [List.length_cons, Nat.succ_ne_zero, if_false, List.getElem?_cons_zero]
        constructor
        · intro h; cases h
        · intro h
          rw [h first hfirst.1] at hfirst
          exact absurd hfirst.2 (by decide)
      · intro _
        exact ⟨_, pre, post, by simp, hdec, hp, hpre, hpost⟩
  · intro allimages filter
    simp only [GetVMImage, foldl_collect, List.nil_append]
    rcases hf : allimages.filter filter with _ | ⟨first, rest⟩
    · have hnone : ∀ im ∈ allimages, filter im = false := by
        intro im him
        cases hp : filter im
        · rfl
        · have := List.mem_filter.2 ⟨him, hp⟩
          rw [hf] at this
          exact absurd this (List.not_mem_nil _)
      refine ⟨by simpa using hnone, ?_⟩
      rintro ⟨im, him, hp⟩
      rw [hnone im him] at hp
      exact absurd hp (by decide)
    · obtain ⟨pre, post, hdec, hp, hpre, hpost⟩ :=
        latest_of_filter filter VMImage.PublishedDate allimages first rest hf
      have hfirst : first ∈ allimages ∧ filter first = true :=
        List.mem_filter.1 (by rw [hf]; exact List.mem_cons_self _ _)
      constructor
      · simp only [List.length_cons, Nat.succ_ne_zero, if_false, List.getElem?_cons_zero]
        constructor
        · intro h; cases h
        · intro h
          rw [h first hfirst.1] at hfirst
          exact absurd hfirst.2 (by decide)
      · intro _
        exact ⟨_, pre, post, by simp, hdec, hp, hpre, hpost⟩

/-- Claim C8 at three images that all pass the filter, the last two with the same,
latest date. -/
theorem GetImage_spec_witness :
    (∃ im ∈ sampleImages, (fun _ => true) im = true) ∧
    ∃ image pre post,
      (GetOSImage freshT (.ok sampleImages) (fun _ => true)).1 = .returned image ∧
      sampleImages = pre ++ image :: post ∧ (fun _ => true) image = true ∧
      (∀ x ∈ pre, (fun _ => true) x = true → x.PublishedDate < image.PublishedDate) ∧
      (∀ x ∈ post, (fun _ => true) x = true → x.PublishedDate ≤ image.PublishedDate) :=
  ⟨⟨_, List.mem_cons_self _ _, rfl⟩,
   ((GetImage_spec freshT).1 sampleImages (fun _ => true)).2 ⟨_, List.mem_cons_self _ _, rfl⟩⟩

/-! ### Random names and passwords -/

theorem byteToString_ascii (b : Byte) (h : b.val < 128) : byteToString b = [b] := by
  simp [byteToString, h]

theorem Intn_length (raw : Nat) (frm : GoString) (h : frm ≠ []) :
    Intn raw (frm.length : Int) = some (raw % frm.length) := by
  have : 0 < frm.length := List.length_pos.2 h
  simp only [Intn, Int.toNat_ofNat]
  rw [if_neg (by omega)]

theorem GenerateString.loop_ok (rnd : Nat → Nat) (length : Int) (frm : GoString)
    (hne : frm ≠ []) (hascii : ∀ b ∈ frm, b.val < 128) :
    ∀ (fuel k : Nat) (str : GoString),
      str.length ≤ length.toNat → length.toNat - str.length ≤ fuel → (∀ b ∈ str, b ∈ frm) →
      ∃ s, GenerateString.loop rnd length frm fuel k str = .ok s ∧
        s.length = length.toNat ∧ ∀ b ∈ s, b ∈ frm := by
  intro fuel
  induction fuel with
  | zero =>
    intro k str h1 h2 h3
    refine ⟨str, ?_, by omega, h3⟩
    rw [GenerateString.loop, if_neg (by omega)]
  | succ fuel ih =>
    intro k str h1 h2 h3
    by_cases hlt : (str.length : Int) < length
    · have hpos : 0 < frm.length := List.length_pos.2 hne
      have hj : rnd k % frm.length < frm.length := Nat.mod_lt _ hpos
      rw [GenerateString.loop, if_pos hlt]
      simp only [Intn_length _ _ hne, List.getElem?_eq_getElem hj]
      have hmem : frm[rnd k % frm.length] ∈ frm := List.getElem_mem _
      rw [byteToString_ascii _ (hascii _ hmem)]
      apply ih
      · rw [List.length_append, List.length_singleton]; omega
      · rw [List.length_append, List.length_singleton]; omega
      · intro b hb
        rcases List.mem_append.1 hb with h | h
        · exact h3 b h
        · rw [List.mem_singleton.1 h]; exact hmem
    · refine ⟨str, ?_, by omega, h3⟩
      rw [GenerateString.loop, if_neg hlt]

set_option maxRecDepth 8192 in
theorem nameAlphabet_ascii :
    lit "1234567890abcdefghijklmnopqrstuvwxyz" ≠ [] ∧
    ∀ b ∈ lit "1234567890abcdefghijklmnopqrstuvwxyz", b.val < 128 := by
  decide

set_option maxRecDepth 8192 in
theorem passwordAlphabets_ascii :
    (lit "1234567890" ≠ [] ∧ ∀ b ∈ lit "1234567890", b.val < 128) ∧
    (lit "abcdefghijklmnopqrstuvwxyz" ≠ [] ∧
      ∀ b ∈ lit "abcdefghijklmnopqrstuvwxyz", b.val < 128) ∧
    (lit "ABCDEFGHIJKLMNOPQRSTUVWXYZ" ≠ [] ∧
      ∀ b ∈ lit "ABCDEFGHIJKLMNOPQRSTUVWXYZ", b.val < 128) := by
  decide

set_option maxRecDepth 8192 in
theorem abAlphabet_ascii : lit "ab" ≠ [] ∧ ∀ b ∈ lit "ab", b.val < 128 := by
  decide

/-- Claim C10: for every random source, `GenerateString(length, from)` with a length
of 0 or more and a non-empty alphabet of ASCII bytes returns, within `length`
iterations, a string of exactly `length` bytes that all occur in the alphabet; for a
length of 0 or less it returns the empty string; and `GenerateName` returns "sdk"
followed by 12 bytes of its alphabet, 15 bytes in all. -/
theorem GenerateString_spec (fuel : Nat) (rnd : Nat → Nat) :
    (∀ (length : Int) (frm : GoString), 0 ≤ length → frm ≠ [] → (∀ b ∈ frm, b.val < 128) →
      length.toNat ≤ fuel →
      ∃ s, GenerateString fuel rnd length frm = .ok s ∧ (s.length : Int) = length ∧
        ∀ b ∈ s, b ∈ frm) ∧
    (∀ (length : Int) (frm : GoString), length ≤ 0 → GenerateString fuel rnd length frm = .ok []) ∧
    (12 ≤ fuel →
      ∃ s, GenerateName fuel rnd = .ok (lit "sdk" ++ s) ∧ s.length = 12 ∧
        (∀ b ∈ s, b ∈ lit "1234567890abcdefghijklmnopqrstuvwxyz") ∧
        (lit "sdk" ++ s).length = 15) := by
  refine ⟨?_, ?_, ?_⟩
  · intro length frm hlen hne hascii hfuel
    obtain ⟨s, h1, h2, h3⟩ := GenerateString.loop_ok rnd length frm hne hascii fuel 0 []
      (by simp) (by simpa using hfuel) (by simp)
    exact ⟨s, h1, by omega, h3⟩
  · intro length frm hlen
    cases fuel <;> simp only [GenerateString]
    all_goals rw [GenerateString.loop, if_neg (by simp; omega)]
  · intro hfuel
    obtain ⟨s, h1, h2, h3⟩ := GenerateString.loop_ok rnd 12
      (lit "1234567890abcdefghijklmnopqrstuvwxyz") nameAlphabet_ascii.1 nameAlphabet_ascii.2
      fuel 0 [] (by simp) (by simpa using hfuel) (by simp)
    refine ⟨s, ?_, by simpa using h2, h3, ?_⟩
    · simp only [GenerateName, GenerateString, h1]
    · rw [List.length_append, h2]; rfl

/-- Claim C10 at the length 3, the alphabet "ab" and 12 iterations allowed. -/
theorem GenerateString_spec_witness :
    ((0 : Int) ≤ 3 ∧ lit "ab" ≠ [] ∧ (∀ b ∈ lit "ab", b.val < 128) ∧ (3 : Int).toNat ≤ 12 ∧
      ∃ s, GenerateString 12 (fun k => 7 * k + 3) 3 (lit "ab") = .ok s ∧
        (s.length : Int) = 3 ∧ ∀ b ∈ s, b ∈ lit "ab") ∧
    (12 ≤ 12 ∧
      ∃ s, GenerateName 12 (fun k => 7 * k + 3) = .ok (lit "sdk" ++ s) ∧ s.length = 12 ∧
        (∀ b ∈ s, b ∈ lit "1234567890abcdefghijklmnopqrstuvwxyz") ∧
        (lit "sdk" ++ s).length = 15) :=
  ⟨⟨by decide, abAlphabet_ascii.1, abAlphabet_ascii.2, by decide,
    (GenerateString_spec 12 (fun k => 7 * k + 3)).1 3 (lit "ab")
      (by decide) abAlphabet_ascii.1 abAlphabet_ascii.2 (by decide)⟩,
   ⟨le_rfl, (GenerateString_spec 12 (fun k => 7 * k + 3)).2.2 le_rfl⟩⟩

theorem slice_nat (s : GoString) (lo hi : Nat) (h1 : lo ≤ hi) (h2 : hi ≤ s.length) :
    slice s (lo : Int) (hi : Int) = some ((s.take hi).drop lo) := by
  simp only [slice, Int.toNat_ofNat]
  rw [if_pos (by omega)]

theorem cut_split (pw : GoString) (i : Nat) (h1 : 1 ≤ i) :
    pw = pw.take (i - 1) ++ (pw.drop (i - 1)).take 1 ++ pw.drop i := by
  have h : pw.drop i = (pw.drop (i - 1)).drop 1 := by
    rw [List.drop_drop]; congr 1; omega
  rw [h, List.append_assoc, List.take_append_drop, List.take_append_drop]

theorem countP_cut (p : Byte → Bool) (pw : GoString) (i : Nat) (h1 : 1 ≤ i) :
    pw.countP p ≤ (pw.drop i ++ pw.take (i - 1)).countP p + 1 := by
  have hsplit := cut_split pw i h1
  have hle : ((pw.drop (i - 1)).take 1).countP p ≤ 1 :=
    le_trans (List.countP_le_length _) (by rw [List.length_take]; omega)
  calc pw.countP p
      = (pw.take (i - 1) ++ (pw.drop (i - 1)).take 1 ++ pw.drop i).countP p := by rw [← hsplit]
    _ ≤ (pw.drop i ++ pw.take (i - 1)).countP p + 1 := by
        simp only [List.countP_append]; omega

/-- Claim C9: for every outcome of the four random sources, the three calls of
`GenerateString` return `s1`, `s2` and `s3`, which make a `pw` of 60 bytes; the cut
index `i` is between 1 and 58, no slice is out of bounds, and `GeneratePassword`
returns `pw[i:]` followed by `pw[:i-1]`, which has 59 bytes and is `pw` rotated with
the one byte at index `i - 1` left out; so it has at least 19 digits, at least 19
lowercase and at least 19 uppercase letters, and no other byte. -/
theorem GeneratePassword_spec (fuel : Nat) (rnd1 rnd2 rnd3 : Nat → Nat) (raw : Nat)
    (hfuel : 20 ≤ fuel) :
    ∃ (s1 s2 s3 : GoString) (i : Nat),
      GenerateString fuel rnd1 20 (lit "1234567890") = .ok s1 ∧
      GenerateString fuel rnd2 20 (lit "abcdefghijklmnopqrstuvwxyz") = .ok s2 ∧
      GenerateString fuel rnd3 20 (lit "ABCDEFGHIJKLMNOPQRSTUVWXYZ") = .ok s3 ∧
      (s1 ++ s2 ++ s3).length = 60 ∧
      i = raw % 58 + 1 ∧ 1 ≤ i ∧ i ≤ 58 ∧
      GeneratePassword fuel rnd1 rnd2 rnd3 raw
        = .ok ((s1 ++ s2 ++ s3).drop i ++ (s1 ++ s2 ++ s3).take (i - 1)) ∧
      ((s1 ++ s2 ++ s3).drop i ++ (s1 ++ s2 ++ s3).take (i - 1)).length = 59 ∧
      s1 ++ s2 ++ s3 = (s1 ++ s2 ++ s3).take (i - 1) ++
        ((s1 ++ s2 ++ s3).drop (i - 1)).take 1 ++ (s1 ++ s2 ++ s3).drop i ∧
      (((s1 ++ s2 ++ s3).drop (i - 1)).take 1).length = 1 ∧
      19 ≤ ((s1 ++ s2 ++ s3).drop i ++ (s1 ++ s2 ++ s3).take (i - 1)).countP
        (fun b => b ∈ lit "1234567890") ∧
      19 ≤ ((s1 ++ s2 ++ s3).drop i ++ (s1 ++ s2 ++ s3).take (i - 1)).countP
        (fun b => b ∈ lit "abcdefghijklmnopqrstuvwxyz") ∧
      19 ≤ ((s1 ++ s2 ++ s3).drop i ++ (s1 ++ s2 ++ s3).take (i - 1)).countP
        (fun b => b ∈ lit "ABCDEFGHIJKLMNOPQRSTUVWXYZ") ∧
      ∀ b ∈ (s1 ++ s2 ++ s3).drop i ++ (s1 ++ s2 ++ s3).take (i - 1),
        b ∈ lit "1234567890" ∨ b ∈ lit "abcdefghijklmnopqrstuvwxyz" ∨
          b ∈ lit "ABCDEFGHIJKLMNOPQRSTUVWXYZ" := by
  obtain ⟨⟨a1, a2⟩, ⟨b1, b2⟩, ⟨c1, c2⟩⟩ := passwordAlphabets_ascii
  obtain ⟨s1, e1, l1, m1⟩ := GenerateString.loop_ok rnd1 20 _ a1 a2 fuel 0 []
    (by simp) (by simpa using hfuel) (by simp)
  obtain ⟨s2, e2, l2, m2⟩ := GenerateString.loop_ok rnd2 20 _ b1 b2 fuel 0 []
    (by simp) (by simpa using hfuel) (by simp)
  obtain ⟨s3, e3, l3, m3⟩ := GenerateString.loop_ok rnd3 20 _ c1 c2 fuel 0 []
    (by simp) (by simpa using hfuel) (by simp)
  have l1' : s1.length = 20 := by simpa using l1
  have l2' : s2.length = 20 := by simpa using l2
  have l3' : s3.length = 20 := by simpa using l3
  have hlen : (s1 ++ s2 ++ s3).length = 60 := by
    simp only [List.length_append, l1', l2', l3']
  have hi : raw % 58 < 58 := Nat.mod_lt _ (by omega)
  refine ⟨s1, s2, s3, raw % 58 + 1, e1, e2, e3, hlen, rfl, by omega, by omega, ?_⟩
  generalize hpw : s1 ++ s2 ++ s3 = pw at hlen ⊢
  have hmem : ∀ b ∈ pw, b ∈ lit "1234567890" ∨ b ∈ lit "abcdefghijklmnopqrstuvwxyz" ∨
      b ∈ lit "ABCDEFGHIJKLMNOPQRSTUVWXYZ" := by
    intro b hb
    rw [← hpw] at hb
    rcases List.mem_append.1 hb with h | h
    · rcases List.mem_append.1 h with h | h
      · exact Or.inl (m1 b h)
      · exact Or.inr (Or.inl (m2 b h))
    · exact Or.inr (Or.inr (m3 b h))
  have hcount : ∀ (p : Byte → Bool) (s : GoString), s.length = 20 → (∀ b ∈ s, p b = true) →
      s <:+: pw → 19 ≤ (pw.drop (raw % 58 + 1) ++ pw.take (raw % 58 + 1 - 1)).countP p := by
    intro p s hs hall hsub
    have h1 : s.countP p = 20 := by rw [List.countP_eq_length.2 hall, hs]
    have h2 : s.countP p ≤ pw.countP p := List.Sublist.countP_le _ hsub.sublist
    have h3 := countP_cut p pw (raw % 58 + 1) (by omega)
    omega
  refine ⟨?_, ?_, ?_, ?_, ?_, ?_, ?_, ?_⟩
  · simp only [GeneratePassword]
    unfold GenerateString
    simp only [e1, e2, e3, hpw, hlen]
    have hn : Intn raw (((60 : Nat) : Int) - 2) = some (raw % 58) := by
      rw [show ((60 : Nat) : Int) - 2 = ((58 : Nat) : Int) by norm_num]
      simp only [Intn, Int.toNat_ofNat]
      rw [if_neg (by omega)]
    rw [hn]
    simp only
    have ht : slice pw (((raw % 58 : Nat) : Int) + 1) ((60 : Nat) : Int)
        = some (pw.drop (raw % 58 + 1)) := by
      have := slice_nat pw (raw % 58 + 1) 60 (by omega) (by omega)
      rw [List.take_of_length_le (by omega)] at this
      rw [← this, Nat.cast_add, Nat.cast_one]
    have hh : slice pw 0 (((raw % 58 : Nat) : Int) + 1 - 1)
        = some (pw.take (raw % 58 + 1 - 1)) := by
      have := slice_nat pw 0 (raw % 58) (by omega) (by omega)
      rw [List.drop_zero] at this
      rw [Nat.add_sub_cancel, ← this]
      congr 1
      omega
    rw [ht, hh]
  · rw [List.length_append, List.length_drop, List.length_take]; omega
  · exact cut_split pw (raw % 58 + 1) (by omega)
  · rw [List.length_take, List.length_drop]; omega
  · exact hcount _ s1 l1' (by simpa using m1) (by rw [← hpw]; exact ⟨[], s2 ++ s3, by simp⟩)
  · exact hcount _ s2 l2' (by simpa using m2) (by rw [← hpw]; exact ⟨s1, s3, by simp⟩)
  · exact hcount _ s3 l3' (by simpa using m3) (by rw [← hpw]; exact ⟨s1 ++ s2, [], by simp⟩)
  · intro b hb
    rcases List.mem_append.1 hb with h | h
    · exact hmem b (List.mem_of_mem_drop h)
    · exact hmem b (List.mem_of_mem_take h)

/-- Claim C9 with 20 iterations allowed and the raw output 57, which gives the
largest cut index, 58. -/
theorem GeneratePassword_spec_witness :
    20 ≤ 20 ∧
    ∃ (s1 s2 s3 : GoString) (i : Nat),
      GenerateString 20 (fun k => 7 * k + 3) 20 (lit "1234567890") = .ok s1 ∧
      GenerateString 20 (fun k => 5 * k + 3) 20 (lit "abcdefghijklmnopqrstuvwxyz") = .ok s2 ∧
      GenerateString 20 (fun k => 3 * k + 3) 20 (lit "ABCDEFGHIJKLMNOPQRSTUVWXYZ") = .ok s3 ∧
      (s1 ++ s2 ++ s3).length = 60 ∧
      i = 57 % 58 + 1 ∧ 1 ≤ i ∧ i ≤ 58 ∧
      GeneratePassword 20 (fun k => 7 * k + 3) (fun k => 5 * k + 3) (fun k => 3 * k + 3) 57
        = .ok ((s1 ++ s2 ++ s3).drop i ++ (s1 ++ s2 ++ s3).take (i - 1)) ∧
      ((s1 ++ s2 ++ s3).drop i ++ (s1 ++ s2 ++ s3).take (i - 1)).length = 59 ∧
      s1 ++ s2 ++ s3 = (s1 ++ s2 ++ s3).take (i - 1) ++
        ((s1 ++ s2 ++ s3).drop (i - 1)).take 1 ++ (s1 ++ s2 ++ s3).drop i ∧
      (((s1 ++ s2 ++ s3).drop (i - 1)).take 1).length = 1 ∧
      19 ≤ ((s1 ++ s2 ++ s3).drop i ++ (s1 ++ s2 ++ s3).take (i - 1)).countP
        (fun b => b ∈ lit "1234567890") ∧
      19 ≤ ((s1 ++ s2 ++ s3).drop i ++ (s1 ++ s2 ++ s3).take (i - 1)).countP
        (fun b => b ∈ lit "abcdefghijklmnopqrstuvwxyz") ∧
      19 ≤ ((s1 ++ s2 ++ s3).drop i ++ (s1 ++ s2 ++ s3).take (i - 1)).countP
        (fun b => b ∈ lit "ABCDEFGHIJKLMNOPQRSTUVWXYZ") ∧
      ∀ b ∈ (s1 ++ s2 ++ s3).drop i ++ (s1 ++ s2 ++ s3).take (i - 1),
        b ∈ lit "1234567890" ∨ b ∈ lit "abcdefghijklmnopqrstuvwxyz" ∨
          b ∈ lit "ABCDEFGHIJKLMNOPQRSTUVWXYZ" :=
  ⟨le_rfl,
   GeneratePassword_spec 20 (fun k => 7 * k + 3) (fun k => 5 * k + 3) (fun k => 3 * k + 3) 57
    le_rfl⟩

end Azure
